import Mathlib

/-!
# A verification model of the `Distributed_RedisCache` coordinator core

This file gives a shallow embedding in Lean 4 of the coordinator core of the
repository: the consistent-hash ring with virtual nodes and replication
(`ConsistentHashRingWithReplication.js`), the failover manager
(`FailoverManager.js`) and the health monitor (`HealthMonitor.js`), together
with proofs about the embedded operations.

Modelling conventions:
* JavaScript numbers used as 32-bit hash values are modelled as `Nat` reduced
  mod `2 ^ 32` where the source wraps.
* JavaScript `Map`s are modelled as association lists with JS `Map` semantics
  (`List.lookup` finds the binding, updates replace in place, new keys are
  appended at the end).
* Remote Redis commands are modelled by an environment `Env` of oracles giving
  each command's reply, and each operation additionally returns the trace of
  commands it issued, so that theorems can speak about which commands were
  sent to which endpoint.
* Wall-clock readings (`Date.now()`) only feed timestamp fields and durations;
  timestamp fields are omitted from records and durations are taken as
  explicit parameters.
* Exceptions (`throw` / rejected promises) are modelled with `Except`.
-/

set_option maxRecDepth 40000

namespace RedisCache

/-- The 32-bit hash space `2^32` used by the ring (`this.hashSpace`). -/
def hashSpace : Nat := 2 ^ 32

/-- 32-bit truncating addition. -/
def add32 (a b : Nat) : Nat := (a + b) % hashSpace

/-- 32-bit right rotation. -/
def rotr32 (n x : Nat) : Nat := ((x >>> n) ||| (x <<< (32 - n))) % hashSpace

/-- 32-bit complement. -/
def not32 (x : Nat) : Nat := Nat.xor x (hashSpace - 1)

/-- SHA-256 round constants. -/
def shaK : List Nat :=
  [1116352408, 1899447441, 3049323471, 3921009573, 961987163,
   1508970993, 2453635748, 2870763221, 3624381080, 310598401,
   607225278, 1426881987, 1925078388, 2162078206, 2614888103,
   3248222580, 3835390401, 4022224774, 264347078, 604807628,
   770255983, 1249150122, 1555081692, 1996064986, 2554220882,
   2821834349, 2952996808, 3210313671, 3336571891, 3584528711,
   113926993, 338241895, 666307205, 773529912, 1294757372,
   1396182291, 1695183700, 1986661051, 2177026350, 2456956037,
   2730485921, 2820302411, 3259730800, 3345764771, 3516065817,
   3600352804, 4094571909, 275423344, 430227734, 506948616,
   659060556, 883997877, 958139571, 1322822218, 1537002063,
   1747873779, 1955562222, 2024104815, 2227730452, 2361852424,
   2428436474, 2756734187, 3204031479, 3329325298]

/-- SHA-256 initial hash state. -/
def shaH0 : List Nat :=
  [1779033703, 3144134277, 1013904242,
   2773480762, 1359893119, 2600822924,
   528734635, 1541459225]

/-- Pad a byte message to a multiple of 64 bytes, SHA-256 style. -/
def shaPad (msg : List Nat) : List Nat :=
  let L := msg.length
  let zeros := (64 - ((L + 9) % 64)) % 64
  let bitLen := L * 8
  msg ++ [0x80] ++ List.replicate zeros 0 ++
    [(bitLen >>> 56) % 256, (bitLen >>> 48) % 256, (bitLen >>> 40) % 256, (bitLen >>> 32) % 256,
     (bitLen >>> 24) % 256, (bitLen >>> 16) % 256, (bitLen >>> 8) % 256, bitLen % 256]

/-- Group padded bytes into 32-bit big-endian words. -/
def bytesToWords : List Nat → List Nat
  | b0 :: b1 :: b2 :: b3 :: rest => (((b0 * 256 + b1) * 256 + b2) * 256 + b3) :: bytesToWords rest
  | _ => []

/-- Extend 16 message words into a 64-entry schedule. -/
def shaSchedule (ws : List Nat) (t : Nat) : List Nat :=
  match t with
  | 0 => ws
  | t + 1 =>
    let ws := shaSchedule ws t
    let i := ws.length
    let w15 := ws.getD (i - 15) 0
    let w2 := ws.getD (i - 2) 0
    let s0 := Nat.xor (Nat.xor (rotr32 7 w15) (rotr32 18 w15)) (w15 >>> 3)
    let s1 := Nat.xor (Nat.xor (rotr32 17 w2) (rotr32 19 w2)) (w2 >>> 10)
    ws ++ [add32 (add32 (ws.getD (i - 16) 0) s0) (add32 (ws.getD (i - 7) 0) s1)]

/-- One SHA-256 compression round. -/
def shaRound (w k : Nat) (st : List Nat) : List Nat :=
  let a := st.getD 0 0
  let b := st.getD 1 0
  let c := st.getD 2 0
  let d := st.getD 3 0
  let e := st.getD 4 0
  let f := st.getD 5 0
  let g := st.getD 6 0
  let h := st.getD 7 0
  let S1 := Nat.xor (Nat.xor (rotr32 6 e) (rotr32 11 e)) (rotr32 25 e)
  let ch := Nat.xor (Nat.land e f) (Nat.land (not32 e) g)
  let t1 := add32 (add32 (add32 h S1) (add32 ch k)) w
  let S0 := Nat.xor (Nat.xor (rotr32 2 a) (rotr32 13 a)) (rotr32 22 a)
  let mj := Nat.xor (Nat.xor (Nat.land a b) (Nat.land a c)) (Nat.land b c)
  let t2 := add32 S0 mj
  [add32 t1 t2, a, b, c, add32 d t1, e, f, g]

/-- Compress one 16-word block into the running hash state. -/
def shaBlock (hs ws : List Nat) : List Nat :=
  let sched := shaSchedule ws 48
  let final := (List.range 64).foldl
    (fun st t => shaRound (sched.getD t 0) (shaK.getD t 0) st) hs
  (List.range 8).map (fun i => add32 (hs.getD i 0) (final.getD i 0))

/-- Split a word list into 16-word blocks (padded input is a multiple of 16). -/
def chunks16 : List Nat → List (List Nat)
  | w0 :: w1 :: w2 :: w3 :: w4 :: w5 :: w6 :: w7 ::
    w8 :: w9 :: w10 :: w11 :: w12 :: w13 :: w14 :: w15 :: rest =>
      [w0, w1, w2, w3, w4, w5, w6, w7, w8, w9, w10, w11, w12, w13, w14, w15] :: chunks16 rest
  | _ => []

/-- Fold the compression function over all 16-word blocks. -/
def shaBlocks (hs ws : List Nat) : List Nat :=
  (chunks16 ws).foldl shaBlock hs

/-- UTF-8 encode one character as bytes. -/
def utf8Char (c : Nat) : List Nat :=
  if c < 0x80 then [c]
  else if c < 0x800 then [0xC0 ||| (c >>> 6), 0x80 ||| (c % 64)]
  else if c < 0x10000 then
    [0xE0 ||| (c >>> 12), 0x80 ||| ((c >>> 6) % 64), 0x80 ||| (c % 64)]
  else [0xF0 ||| (c >>> 18), 0x80 ||| ((c >>> 12) % 64), 0x80 ||| ((c >>> 6) % 64), 0x80 ||| (c % 64)]

/-- UTF-8 encode a string as bytes. -/
def utf8Bytes (s : String) : List Nat :=
  (s.data.map (fun c => utf8Char c.toNat)).flatten

/-- First 32 bits of the SHA-256 digest of a byte message (the value of
`parseInt(hashHex.substring(0, 8), 16)` in the source). -/
def sha256First32 (msg : List Nat) : Nat :=
  (shaBlocks shaH0 (bytesToWords (shaPad msg))).getD 0 0

/-- `hashFunction(key)` from `ConsistentHashRingWithReplication`: SHA-256 of
the key, truncated to its first 8 hex digits, reduced mod `2^32`. -/
def hashFunction (key : String) : Nat :=
  sha256First32 (utf8Bytes key) % hashSpace

/-! ## Data model -/

/-- A Redis endpoint as stored in a node binding: a network address.  The
connection handle is not part of the pure model; command outcomes are
supplied by the environment `Env`. -/
structure Endpoint where
  host : String
  port : Nat
deriving DecidableEq, Repr

/-- One primary/replica shard binding (`this.nodes` entries in
`ConsistentHashRingWithReplication.addNodeWithReplica`).  The `primary` and
`replica` fields are the role pointers that `FailoverManager.promoteReplica`
swaps. -/
structure NodeBinding where
  id : Nat
  name : String
  primary : Endpoint
  replica : Endpoint
deriving DecidableEq, Repr

/-- Failover status values stored in `FailoverManager.failoverStatus`
(plus the `NEVER_FAILED` default of `getNodeFailoverStatus`). -/
inductive FStatus where
  | NEVER_FAILED
  | FAILING_OVER
  | FAILED_OVER
  | FAILOVER_FAILED
  | RECOVERED
deriving DecidableEq, Repr

/-- A `failoverStatus` record.  The source stores slightly different field
sets at each call site; a field the source leaves `undefined` is modelled by
`false` (for `promoted`, since `!undefined` is `true`) or `none`.  The
`timestamp`, `topology` and `note` fields carry no behaviour and are
omitted. -/
structure FailoverRecord where
  status : FStatus
  promoted : Bool
  error : Option String
  duration : Option Nat
deriving DecidableEq, Repr

/-- The `failoverMetrics` counters of `FailoverManager`.  The source stores
`averageFailoverTime` as a JS number computed by one exact division; it is
modelled as a rational. -/
structure Metrics where
  totalFailovers : Nat
  successfulFailovers : Nat
  failedFailovers : Nat
  totalFailoverTime : Nat
  averageFailoverTime : ℚ
deriving DecidableEq, Repr

/-- The initial `failoverMetrics` of the `FailoverManager` constructor. -/
def initMetrics : Metrics :=
  { totalFailovers := 0, successfulFailovers := 0, failedFailovers := 0,
    totalFailoverTime := 0, averageFailoverTime := 0 }

/-- Health states actually assigned by `HealthMonitor` (the spec also names
`DEGRADED`, which the source never assigns). -/
inductive HStatus where
  | HEALTHY
  | FAILED
  | FAILED_OVER
deriving DecidableEq, Repr

/-- A `HealthMonitor.nodeStatus` record; the `lastCheck` / `lastSuccess`
timestamps carry no control-flow behaviour and are omitted. -/
structure HealthRecord where
  status : HStatus
  failCount : Nat
deriving DecidableEq, Repr

/-- The coordinator state shared by the ring, the failover manager and the
health monitor. -/
structure CoordState where
  nodes : List (String × NodeBinding)
  ring : List (Nat × String)
  sortedKeys : List Nat
  replicationMode : String
  failoverStatus : List (String × FailoverRecord)
  metrics : Metrics
  healthStatus : List (String × HealthRecord)
  healthHistory : List (String × String)
deriving DecidableEq, Repr

/-- JS `Map.set` on an association list: replace the binding in place if the
key is present, append it otherwise. -/
def mset {α : Type} : List (String × α) → String → α → List (String × α)
  | [], k, v => [(k, v)]
  | (k', v') :: t, k, v =>
    if k' = k then (k, v) :: t else (k', v') :: mset t k v

/-- A command sent to a storage endpoint, as recorded in operation traces. -/
inductive Cmd where
  | ping (e : Endpoint)
  | configSet (e : Endpoint) (k v : String)
  | replicaOf (e : Endpoint) (h p : String)
  | getK (e : Endpoint) (k : String)
  | setK (e : Endpoint) (k v : String)
  | setEx (e : Endpoint) (k : String) (ttl : Nat) (v : String)
  | del (e : Endpoint) (k : String)
  | waitCmd (e : Endpoint) (numreplicas timeoutMs : Nat)
deriving DecidableEq, Repr

/-- The environment: an oracle giving the reply of each storage endpoint to
each kind of command.  `Bool`-valued oracles tell whether the command
succeeds; `Except`-valued ones also carry the reply payload. -/
structure Env where
  pingOk : Endpoint → Bool
  configSetOk : Endpoint → String → String → Bool
  replicaOfOk : Endpoint → String → String → Bool
  getReply : Endpoint → String → Except String (Option String)
  setOk : Endpoint → Bool
  waitReply : Endpoint → Except String Nat
  delReply : Endpoint → String → Except String Nat

/-! ## Ring construction (`addNodeWithReplica`, lines 84-99) -/

/-- The collision-resolution loop of `addNodeWithReplica`:
`while (this.ring.has(position)) position = (position + 1) % this.hashSpace`.
The extra fuel argument bounds the number of iterations; with fuel
`hashSpace` the loop always has enough fuel when fewer than `2 ^ 32`
positions are occupied (`probeFree_spec`). -/
def probeFree (occupied : List Nat) : Nat → Nat → Nat
  | p, 0 => p
  | p, fuel + 1 =>
    if p ∈ occupied then probeFree occupied ((p + 1) % hashSpace) fuel else p

/-- One iteration of the virtual-node loop of `addNodeWithReplica`: compute
the hash of `<nodeName>:vnode<i>`, resolve collisions, and record the
position in `ring` and `sortedKeys`. -/
def addVNodeStep (name : String) (st : CoordState) (i : Nat) : CoordState :=
  let virtualNodeName := name ++ ":vnode" ++ toString i
  let position := probeFree (st.ring.map (·.1)) (hashFunction virtualNodeName) hashSpace
  { st with ring := st.ring ++ [(position, name)],
            sortedKeys := st.sortedKeys ++ [position] }

/-- `addNodeWithReplica(id, primaryConfig, replicaConfig)`: register the
binding under `cache_node_<id>`, insert `V` virtual nodes, then sort the
position list ascending (the JS `sort((a, b) => a - b)`, modelled by
insertion sort). -/
def addNodeWithReplica (id : Nat) (primaryCfg replicaCfg : Endpoint) (V : Nat)
    (st : CoordState) : CoordState :=
  let name := "cache_node_" ++ toString id
  let binding : NodeBinding :=
    { id := id, name := name, primary := primaryCfg, replica := replicaCfg }
  let st1 := { st with nodes := mset st.nodes name binding }
  let st2 := (List.range V).foldl (addVNodeStep name) st1
  { st2 with sortedKeys := st2.sortedKeys.insertionSort (· ≤ ·) }

/-- The `ConsistentHashRingWithReplication` constructor: pair up primaries
and replicas by index and add each shard.  A missing replica config (the JS
`replicaNodes[index]` being `undefined`) is modelled by a default endpoint;
claims only concern matched configurations. -/
def buildRing (primaries replicas : List Endpoint) (V : Nat) (mode : String) : CoordState :=
  let st0 : CoordState :=
    { nodes := [], ring := [], sortedKeys := [], replicationMode := mode,
      failoverStatus := [], metrics := initMetrics, healthStatus := [],
      healthHistory := [] }
  (List.range primaries.length).foldl
    (fun s i => addNodeWithReplica i (primaries.getD i ⟨"", 0⟩) (replicas.getD i ⟨"", 0⟩) V s)
    st0

/-! ## Key lookup (`getNodeForKey`, lines 104-130) -/

/-- The binary-search loop of `getNodeForKey` with an explicit fuel bound on
the iteration count; with fuel at least `right - left` it computes the same
answer as the JS `while (left < right)` loop. -/
def bsearchGo (keys : List Nat) (p : Nat) : Nat → Nat → Nat → Nat
  | left, _, 0 => left
  | left, right, fuel + 1 =>
    if left < right then
      let mid := (left + right) / 2
      if keys.getD mid 0 < p then bsearchGo keys p (mid + 1) right fuel
      else bsearchGo keys p left mid fuel
    else left

/-- The full binary search of `getNodeForKey`: `left = 0`,
`right = sortedKeys.length`, enough fuel for every iteration. -/
def bsearchLoop (keys : List Nat) (p : Nat) : Nat :=
  bsearchGo keys p 0 keys.length keys.length

/-- The shard binding owning ring position `pos`:
`this.nodes.get(this.ring.get(pos))`, where either `Map.get` may miss (JS
`undefined`, modelled by `none`). -/
def ringBindingAt (st : CoordState) (pos : Nat) : Option NodeBinding :=
  match st.ring.lookup pos with
  | some nm => st.nodes.lookup nm
  | none => none

/-- `getNodeForKey(key)`: throw on an empty ring, otherwise binary-search the
sorted positions for the first position `≥ hashFunction key`, wrapping to
index 0 when the search runs off the end, and return the owning binding. -/
def getNodeForKey (st : CoordState) (key : String) : Except String (Option NodeBinding) :=
  if st.sortedKeys.length = 0 then .error ("No nodes available in ring")
  else
    let keyPosition := hashFunction key
    let left := bsearchLoop st.sortedKeys keyPosition
    let idx := if left ≥ st.sortedKeys.length then 0 else left
    .ok (ringBindingAt st (st.sortedKeys.getD idx 0))

/-! ## FailoverManager -/

/-- `isNodeInFailover(nodeName)`: the node has a failover record with status
`FAILING_OVER`. -/
def isNodeInFailover (st : CoordState) (name : String) : Bool :=
  match st.failoverStatus.lookup name with
  | some r => r.status = FStatus.FAILING_OVER
  | none => false

/-- `getWriteTarget(nodeName)`: the endpoint currently in the `primary` role
slot of the binding. -/
def getWriteTarget (st : CoordState) (name : String) : Option Endpoint :=
  (st.nodes.lookup name).map (·.primary)

/-- `getNodeFailoverStatus(nodeName)` with its `NEVER_FAILED` default. -/
def getNodeFailoverStatus (st : CoordState) (name : String) : FailoverRecord :=
  (st.failoverStatus.lookup name).getD
    { status := FStatus.NEVER_FAILED, promoted := false, error := none, duration := none }

/-- `updateAverageFailoverTime()`. -/
def updateAverageFailoverTime (m : Metrics) : Metrics :=
  if m.successfulFailovers > 0 then
    { m with averageFailoverTime := (m.totalFailoverTime : ℚ) / (m.successfulFailovers : ℚ) }
  else m

/-- The binding state between the two pointer assignments of the role swap
in `promoteReplica` (after `node.primary = node.replica` and before
`node.replica = tempPrimary`): both role pointers alias the old replica. -/
def midSwapBinding (node : NodeBinding) : NodeBinding :=
  { node with primary := node.replica }

/-- The binding after the complete role swap of `promoteReplica`: the second
assignment `node.replica = tempPrimary` applied to the mid-swap state. -/
def swappedBinding (node : NodeBinding) : NodeBinding :=
  { midSwapBinding node with replica := node.primary }

/-- Step 1 of `failoverToReplica`: store the `FAILING_OVER` record. -/
def markFailingOver (name : String) (st : CoordState) : CoordState :=
  { st with
      failoverStatus := mset st.failoverStatus name
        ({ status := FStatus.FAILING_OVER, promoted := false, error := none, duration := none }) }

/-- `promoteReplica(nodeName)`: make the replica writable, break its
replication link, then swap the role pointers in coordinator memory.  Any
command failure (or a missing binding, whose field access throws a JS
`TypeError`) rethrows to the caller.  Returns the new state and the command
trace. -/
def promoteReplica (env : Env) (name : String) (st : CoordState) :
    Except String CoordState × List Cmd :=
  match st.nodes.lookup name with
  | none => (.error ("TypeError"), [])
  | some node =>
    let c1 := Cmd.configSet node.replica ("replica-read-only") ("no")
    if env.configSetOk node.replica ("replica-read-only") ("no") then
      let c2 := Cmd.replicaOf node.replica ("NO") ("ONE")
      if env.replicaOfOk node.replica ("NO") ("ONE") then
        (.ok { st with nodes := mset st.nodes name (swappedBinding node) }, [c1, c2])
      else (.error ("replicaOf failed"), [c1, c2])
    else (.error ("configSet failed"), [c1])

/-- The result object of `failoverToReplica`. -/
structure FailoverResult where
  success : Bool
  duration : Option Nat
  error : Option String
  nodeName : String
deriving DecidableEq, Repr

/-- The catch-branch of `failoverToReplica`: record `FAILOVER_FAILED`
(without a `promoted` field, hence `promoted := false`) and count a failed
failover. -/
def failoverCatch (name : String) (e : String) (st : CoordState) : CoordState :=
  { st with
      failoverStatus := mset st.failoverStatus name
        ({ status := FStatus.FAILOVER_FAILED, promoted := false, error := some e, duration := none }),
      metrics := { st.metrics with failedFailovers := st.metrics.failedFailovers + 1 } }

/-- `failoverToReplica(nodeName)`: mark the node `FAILING_OVER`, ping the
replica, promote it, record `FAILED_OVER` and update the metrics; any error
lands in the catch branch.  `dur` is the measured wall-clock duration
`Date.now() - startTime`. -/
def failoverToReplica (env : Env) (name : String) (dur : Nat) (st : CoordState) :
    CoordState × List Cmd × FailoverResult :=
  let st1 := markFailingOver name st
  match st.nodes.lookup name with
  | none =>
    (failoverCatch name ("TypeError") st1, [],
     { success := false, duration := none, error := some ("TypeError"), nodeName := name })
  | some node =>
    let cPing := Cmd.ping node.replica
    if env.pingOk node.replica then
      match promoteReplica env name st1 with
      | (.ok st2, cmds) =>
        let st3 := { st2 with
          failoverStatus := mset st2.failoverStatus name
            ({ status := FStatus.FAILED_OVER, promoted := true, error := none, duration := some dur }),
          metrics := updateAverageFailoverTime
            { st2.metrics with
                totalFailovers := st2.metrics.totalFailovers + 1,
                successfulFailovers := st2.metrics.successfulFailovers + 1,
                totalFailoverTime := st2.metrics.totalFailoverTime + dur } }
        (st3, cPing :: cmds,
         { success := true, duration := some dur, error := none, nodeName := name })
      | (.error e, cmds) =>
        (failoverCatch name e st1, cPing :: cmds,
         { success := false, duration := none, error := some e, nodeName := name })
    else
      (failoverCatch name ("ping failed") st1, [cPing],
       { success := false, duration := none, error := some ("ping failed"), nodeName := name })

/-- `handlePrimaryRecovery(nodeName)`: if a promoted failover record exists,
reconfigure the endpoint now in the `replica` slot (the recovered original
primary) as a replica of the current primary and mark the record
`RECOVERED`; otherwise return without doing anything.  Command failures are
caught and leave the state unchanged. -/
def handlePrimaryRecovery (env : Env) (name : String) (st : CoordState) :
    CoordState × List Cmd :=
  match st.failoverStatus.lookup name with
  | none => (st, [])
  | some info =>
    if info.promoted then
      match st.nodes.lookup name with
      | none => (st, [])
      | some node =>
        let recovered := node.replica
        let currentPrimary := node.primary
        let c1 := Cmd.replicaOf recovered currentPrimary.host (toString currentPrimary.port)
        if env.replicaOfOk recovered currentPrimary.host (toString currentPrimary.port) then
          let c2 := Cmd.configSet recovered ("replica-read-only") ("yes")
          if env.configSetOk recovered ("replica-read-only") ("yes") then
            ({ st with
                failoverStatus := mset st.failoverStatus name
                  ({ status := FStatus.RECOVERED, promoted := false, error := none, duration := none }) },
             [c1, c2])
          else (st, [c1, c2])
        else (st, [c1])
    else (st, [])

/-- Decimal digit character. -/
def digitChar (d : Nat) : Char := Char.ofNat (48 + d)

/-- Decimal digit list of a natural number (fuel-structured so that it
evaluates in the kernel). -/
def natDigitsAux : Nat → Nat → List Char
  | 0, _ => []
  | fuel + 1, n =>
    if n < 10 then [digitChar n]
    else natDigitsAux fuel (n / 10) ++ [digitChar (n % 10)]

/-- Decimal rendering of a natural number. -/
def natStr (n : Nat) : String := ⟨natDigitsAux (n + 1) n⟩

/-- JS `Number.prototype.toFixed(1)` for the non-negative exact values
produced by the success-rate computation, modelled on the rationals. -/
def toFixed1 (q : ℚ) : String :=
  natStr ((round (q * 10)).toNat / 10) ++ "." ++ natStr ((round (q * 10)).toNat % 10)

/-- The `successRate` field of `getFailoverMetrics()`:
`(successful / total * 100).toFixed(1) + "%"` when any failover was counted,
`"N/A"` otherwise. -/
def successRate (m : Metrics) : String :=
  if m.totalFailovers > 0 then
    toFixed1 ((m.successfulFailovers : ℚ) / (m.totalFailovers : ℚ) * 100) ++ "%"
  else "N/A"

/-! ## HealthMonitor (`checkNode`, lines 54-112) -/

/-- The consecutive-failure threshold (`this.failureThreshold`). -/
def failureThreshold : Nat := 3

/-- Append to the bounded health-event history (`logHealthEvent`). -/
def logHealthEvent (ev : String × String) (hist : List (String × String)) :
    List (String × String) :=
  let h := hist ++ [ev]
  if h.length > 100 then h.tail else h

/-- The outcome of one `checkNode` call: the new state, the issued commands,
and whether `handlePrimaryRecovery` resp. `failoverToReplica` were invoked. -/
structure CheckOutcome where
  state : CoordState
  cmds : List Cmd
  invokedRecovery : Bool
  invokedFailover : Bool
deriving Repr

/-- `HealthMonitor.checkNode(nodeName, nodeInfo)`: ping the endpoint in the
binding's `primary` slot.  On success, a node previously `FAILED` or
`FAILED_OVER` goes through `handleNodeRecovery` (which logs the event and
calls `FailoverManager.handlePrimaryRecovery`), and the record becomes
`HEALTHY` with `failCount := 0`.  On failure the fail counter is bumped and,
at the threshold, the record becomes `FAILED`, `failoverToReplica` runs, and
the record then becomes `FAILED_OVER` regardless of the failover's outcome.
The `dur` argument is passed through to `failoverToReplica`.  A node with no
health record is returned unchanged (the monitor initializes every node
before checking). -/
def checkNode (env : Env) (name : String) (dur : Nat) (st : CoordState) : CheckOutcome :=
  match st.healthStatus.lookup name, st.nodes.lookup name with
  | some hstat, some node =>
    let cPing := Cmd.ping node.primary
    if env.pingOk node.primary then
      let afterRec :=
        if hstat.status = HStatus.FAILED ∨ hstat.status = HStatus.FAILED_OVER then
          let pr := handlePrimaryRecovery env name
            { st with healthHistory := logHealthEvent (name, "PRIMARY_RECOVERED") st.healthHistory }
          (pr.1, pr.2, true)
        else (st, [], false)
      let st2 := { afterRec.1 with
        healthStatus := mset afterRec.1.healthStatus name
          ({ status := HStatus.HEALTHY, failCount := 0 }) }
      { state := st2, cmds := cPing :: afterRec.2.1,
        invokedRecovery := afterRec.2.2, invokedFailover := false }
    else
      let fc := hstat.failCount + 1
      if fc ≥ failureThreshold ∧ hstat.status ≠ HStatus.FAILED ∧ hstat.status ≠ HStatus.FAILED_OVER then
        let stF := { st with
          healthStatus := mset st.healthStatus name ({ status := HStatus.FAILED, failCount := fc }),
          healthHistory := logHealthEvent (name, "PRIMARY_FAILED") st.healthHistory }
        let fr := failoverToReplica env name dur stF
        let st'' := { fr.1 with
          healthStatus := mset fr.1.healthStatus name
            ({ status := HStatus.FAILED_OVER, failCount := fc }) }
        { state := st'', cmds := cPing :: fr.2.1, invokedRecovery := false, invokedFailover := true }
      else
        { state := { st with
            healthStatus := mset st.healthStatus name ({ status := hstat.status, failCount := fc }) },
          cmds := [cPing], invokedRecovery := false, invokedFailover := false }
  | _, _ => { state := st, cmds := [], invokedRecovery := false, invokedFailover := false }

/-! ## Cache operations (`set` / `get` / `delete`) -/

/-- The `replication` sub-object of a successful `set` result. -/
structure ReplicationInfo where
  mode : String
  replicas : Nat
  status : String
  error : Option String
deriving DecidableEq, Repr

/-- The result object of `set`.  Fields the source leaves out of a given
return object are `none`; the `latency` field is presentation-only and
omitted.  Values are modelled as strings (the source stringifies non-string
values with `JSON.stringify` before writing). -/
structure SetResult where
  success : Bool
  key : String
  node : String
  nodeIndex : Nat
  error : Option String
  retryAfter : Option String
  reason : Option String
  hash : Option Nat
  target : Option String
  replication : Option ReplicationInfo
deriving DecidableEq, Repr

/-- `set(key, value, ttl, mode)`: resolve the shard, fail fast with the
node-in-failover error if `isNodeInFailover`, otherwise `SET`/`SETEX` on the
current write target, then `WAIT 1 1000` in sync mode.  An empty ring (or a
binding miss, a JS `TypeError` outside the try block) throws. -/
def setOp (env : Env) (key value : String) (ttl : Option Nat) (mode : Option String)
    (st : CoordState) : Except String (List Cmd × SetResult) :=
  match getNodeForKey st key with
  | .error e => .error e
  | .ok none => .error ("TypeError")
  | .ok (some node) =>
    let effectiveMode := mode.getD st.replicationMode
    if isNodeInFailover st node.name then
      .ok ([], { success := false, key := key, node := node.name, nodeIndex := node.id,
                 error := some ("Node is in failover state"),
                 retryAfter := some ("5 seconds"),
                 reason := some ("Promotion in progress, writes temporarily unavailable"),
                 hash := none, target := none, replication := none })
    else
      match getWriteTarget st node.name with
      | none =>
        .ok ([], { success := false, key := key, node := node.name, nodeIndex := node.id,
                   error := some ("TypeError"), retryAfter := none, reason := none,
                   hash := none, target := none, replication := none })
      | some writeTarget =>
        let c := match ttl with
          | some t => Cmd.setEx writeTarget key t value
          | none => Cmd.setK writeTarget key value
        if env.setOk writeTarget then
          let withWait :=
            if effectiveMode = "sync" then
              match env.waitReply writeTarget with
              | .ok replicated =>
                ([c, Cmd.waitCmd writeTarget 1 1000],
                 { mode := effectiveMode, replicas := replicated,
                   status := if replicated ≥ 1 then "confirmed" else "timeout",
                   error := none : ReplicationInfo })
              | .error e =>
                ([c, Cmd.waitCmd writeTarget 1 1000],
                 { mode := effectiveMode, replicas := 0, status := "error",
                   error := some e : ReplicationInfo })
            else
              ([c], { mode := effectiveMode, replicas := 0, status := "async",
                      error := none : ReplicationInfo })
          .ok (withWait.1,
               { success := true, key := key, node := node.name, nodeIndex := node.id,
                 error := none, retryAfter := none, reason := none,
                 hash := some (hashFunction key),
                 target := if (getNodeFailoverStatus st node.name).promoted then "promoted_replica"
                           else "primary",
                 replication := some withWait.2 })
        else
          .ok ([c], { success := false, key := key, node := node.name, nodeIndex := node.id,
                      error := some ("SET failed"), retryAfter := none, reason := none,
                      hash := none, target := none, replication := none })

/-- The result object of `get`.  The source additionally `JSON.parse`s the
returned value when possible; the model keeps the raw string, which does not
affect the success/source/failover/warning structure. -/
structure GetResult where
  success : Bool
  key : String
  node : String
  nodeIndex : Nat
  value : Option String
  reason : Option String
  source : Option String
  failover : Bool
  warning : Option String
  error : Option String
deriving DecidableEq, Repr

/-- `get(key)`: read from the endpoint in the `primary` slot; a `null` reply
means the key is absent, a thrown error means one fallback attempt on the
`replica` slot, and errors on both endpoints give the node-unavailable
result. -/
def getOp (env : Env) (key : String) (st : CoordState) :
    Except String (List Cmd × GetResult) :=
  match getNodeForKey st key with
  | .error e => .error e
  | .ok none => .error ("TypeError")
  | .ok (some node) =>
    let cp := Cmd.getK node.primary key
    match env.getReply node.primary key with
    | .ok none =>
      .ok ([cp], { success := false, key := key, node := node.name, nodeIndex := node.id,
                   value := none, reason := some ("key_not_found"), source := some ("primary"),
                   failover := false, warning := none, error := none })
    | .ok (some v) =>
      .ok ([cp], { success := true, key := key, node := node.name, nodeIndex := node.id,
                   value := some v, reason := none, source := some ("primary"),
                   failover := false, warning := none, error := none })
    | .error _ =>
      let cr := Cmd.getK node.replica key
      match env.getReply node.replica key with
      | .ok none =>
        .ok ([cp, cr], { success := false, key := key, node := node.name, nodeIndex := node.id,
                         value := none, reason := some ("key_not_found"),
                         source := some ("replica"), failover := true, warning := none,
                         error := none })
      | .ok (some v) =>
        .ok ([cp, cr], { success := true, key := key, node := node.name, nodeIndex := node.id,
                         value := some v, reason := none, source := some ("replica"),
                         failover := true,
                         warning := some ("Primary unavailable, reading from replica"),
                         error := none })
      | .error _ =>
        .ok ([cp, cr], { success := false, key := key, node := node.name, nodeIndex := node.id,
                         value := none, reason := none, source := none, failover := false,
                         warning := none, error := some ("Node completely unavailable") })

/-- The result object of `delete`. -/
structure DelResult where
  success : Bool
  key : String
  node : String
  nodeIndex : Nat
  error : Option String
deriving DecidableEq, Repr

/-- `delete(key)`: resolve the shard and issue `DEL` against the current
write target; `success` is whether exactly one key was removed.  There is no
failover-status check on this path. -/
def deleteOp (env : Env) (key : String) (st : CoordState) :
    Except String (List Cmd × DelResult) :=
  match getNodeForKey st key with
  | .error e => .error e
  | .ok none => .error ("TypeError")
  | .ok (some node) =>
    match getWriteTarget st node.name with
    | none =>
      .ok ([], { success := false, key := key, node := node.name, nodeIndex := node.id,
                 error := some ("TypeError") })
    | some writeTarget =>
      let c := Cmd.del writeTarget key
      match env.delReply writeTarget key with
      | .ok r =>
        .ok ([c], { success := r = 1, key := key, node := node.name, nodeIndex := node.id,
                    error := none })
      | .error e =>
        .ok ([c], { success := false, key := key, node := node.name, nodeIndex := node.id,
                    error := some e })

/-! ## Execution histories

The state-mutating entry points of the failover manager and health monitor,
as an action type, so that invariants can be stated over every execution
history.  Cache operations (`set` / `get` / `delete`) never mutate the
coordinator state and so do not appear. -/

/-- One state-mutating call into the coordinator. -/
inductive Action where
  | failover (env : Env) (name : String) (dur : Nat)
  | recovery (env : Env) (name : String)
  | check (env : Env) (name : String) (dur : Nat)
  | reset (name : String)

/-- Apply one action to the coordinator state (`resetNodeStatus` deletes the
node's failover record). -/
def applyAction (st : CoordState) : Action → CoordState
  | .failover env name dur => (failoverToReplica env name dur st).1
  | .recovery env name => (handlePrimaryRecovery env name st).1
  | .check env name dur => (checkNode env name dur st).state
  | .reset name => { st with failoverStatus := st.failoverStatus.filter (fun p => p.1 ≠ name) }

/-! ## Concrete fixtures used by closed theorems and witnesses -/

/-- A concrete original-primary endpoint. -/
def epP : Endpoint := ⟨"10.0.0.1", 6379⟩

/-- A concrete original-replica endpoint. -/
def epR : Endpoint := ⟨"10.0.0.2", 6379⟩

/-- The name of shard 0. -/
def n0 : String := "cache_node_0"

/-- The shard-0 binding in its original orientation. -/
def b0 : NodeBinding := ⟨0, n0, epP, epR⟩

/-- An environment in which every endpoint answers every command. -/
def envUp : Env :=
  { pingOk := fun _ => true, configSetOk := fun _ _ _ => true,
    replicaOfOk := fun _ _ _ => true, getReply := fun _ _ => .ok (some ("v")),
    setOk := fun _ => true, waitReply := fun _ => .ok 1, delReply := fun _ _ => .ok 1 }

/-- A fresh one-shard coordinator state with no failover history. -/
def stFresh : CoordState :=
  { nodes := [(n0, b0)], ring := [], sortedKeys := [],
    replicationMode := "async", failoverStatus := [], metrics := initMetrics,
    healthStatus := [(n0, ⟨HStatus.HEALTHY, 0⟩)], healthHistory := [] }

/-- A one-shard state whose shard is mid-promotion (`FAILING_OVER`), with a
one-position ring so every key resolves to it. -/
def stGated : CoordState :=
  { nodes := [(n0, b0)], ring := [(0, n0)], sortedKeys := [0],
    replicationMode := "async",
    failoverStatus := [(n0, ⟨FStatus.FAILING_OVER, false, none, none⟩)],
    metrics := initMetrics, healthStatus := [], healthHistory := [] }

/-- The post-failover environment: the promoted replica `epR` answers pings,
the original primary `epP` is still down for every command. -/
def envC1 : Env :=
  { pingOk := fun e => decide (e = epR), configSetOk := fun _ _ _ => false,
    replicaOfOk := fun _ _ _ => false, getReply := fun _ _ => .error ("down"),
    setOk := fun _ => false, waitReply := fun _ => .error ("down"),
    delReply := fun _ _ => .error ("down") }

/-- The coordinator state right after a completed failover of shard 0: role
pointers swapped (`primary := epR`, `replica := epP`), failover record
`FAILED_OVER`/`promoted`, health record `FAILED_OVER`. -/
def stC1 : CoordState :=
  { nodes := [(n0, ⟨0, n0, epR, epP⟩)], ring := [], sortedKeys := [],
    replicationMode := "async",
    failoverStatus := [(n0, ⟨FStatus.FAILED_OVER, true, none, some 5⟩)],
    metrics := { initMetrics with totalFailovers := 1, successfulFailovers := 1 },
    healthStatus := [(n0, ⟨HStatus.FAILED_OVER, 3⟩)], healthHistory := [] }

/-- An environment whose primary `epP` errors on `GET` while `epR` serves
the value `"v"`. -/
def envC8 : Env :=
  { envUp with getReply := fun e _ => if e = epP then .error ("conn refused") else .ok (some ("v")) }

/-- A one-shard state with a two-position ring, used to exercise the wrap
behaviour of the lookup. -/
def stRing2 : CoordState :=
  { nodes := [(n0, b0)], ring := [(10, n0), (20, n0)], sortedKeys := [10, 20],
    replicationMode := "async", failoverStatus := [], metrics := initMetrics,
    healthStatus := [], healthHistory := [] }

/-- The construction invariant of the ring: position keys are pairwise
distinct, all within the hash space, and `sortedKeys` holds exactly the ring
keys (up to order). -/
def RingInv (st : CoordState) : Prop :=
  (st.ring.map (·.1)).Nodup ∧ (∀ q ∈ st.ring.map (·.1), q < hashSpace) ∧
  st.sortedKeys.Perm (st.ring.map (·.1))

/-! ## Helper lemmas -/

/-- Sanity check of the SHA-256 model against the standard test vector:
the first 8 hex digits of `SHA-256("abc")` are `ba7816bf`. -/
theorem hashFunction_abc : hashFunction ("abc") = 0xba7816bf := by decide

/-- `List.lookup` after a JS-`Map.set` style update. -/
theorem lookup_mset {α : Type} (m : List (String × α)) (k k' : String) (v : α) :
    (mset m k v).lookup k' = if k' = k then some v else m.lookup k' := by
  induction m with
  | nil =>
    by_cases h : k' = k
    · simp [mset, List.lookup, h]
    · simp [mset, List.lookup, h, beq_eq_false_iff_ne.mpr h]
  | cons hd t ih =>
    obtain ⟨k₀, v₀⟩ := hd
    by_cases h0 : k₀ = k
    · subst h0
      by_cases h : k' = k₀
      · simp [mset, List.lookup, h]
      · simp [mset, List.lookup, h, beq_eq_false_iff_ne.mpr h]
    · by_cases h : k' = k₀
      · have hne : ¬ k' = k := by rw [h]; exact h0
        simp [mset, h0, List.lookup, h, hne]
      · simp [mset, h0, List.lookup, h, beq_eq_false_iff_ne.mpr h, ih]

/-- `promoteReplica` succeeds only by swapping the looked-up binding's role
pointers in place; nothing else in the state changes. -/
theorem promoteReplica_ok (env : Env) (name : String) (st st' : CoordState) (cmds : List Cmd)
    (h : promoteReplica env name st = (.ok st', cmds)) :
    ∃ node, st.nodes.lookup name = some node ∧
      st' = { st with nodes := mset st.nodes name (swappedBinding node) } := by
  unfold promoteReplica at h
  split at h
  · simp at h
  next node heq =>
    split at h
    · split at h
      · simp only [Prod.mk.injEq, Except.ok.injEq] at h
        exact ⟨node, heq, h.1.symm⟩
      · simp at h
    · simp at h

/-- `failoverToReplica` either leaves the node bindings untouched (any
failure path) or swaps the role pointers of the target binding. -/
theorem failoverToReplica_nodes (env : Env) (name : String) (dur : Nat) (st : CoordState) :
    (failoverToReplica env name dur st).1.nodes = st.nodes ∨
    ∃ node, st.nodes.lookup name = some node ∧
      (failoverToReplica env name dur st).1.nodes = mset st.nodes name (swappedBinding node) := by
  simp only [failoverToReplica]
  cases hl : st.nodes.lookup name with
  | none => left; rfl
  | some node =>
    by_cases hping : env.pingOk node.replica
    · simp only [hping, if_true]
      cases hpr : promoteReplica env name (markFailingOver name st) with
      | mk res cmds =>
        cases res with
        | ok st2 =>
          obtain ⟨node', hn', hst2⟩ := promoteReplica_ok _ _ _ _ _ hpr
          right
          have hn'' : List.lookup name st.nodes = some node' := by
            simpa [markFailingOver] using hn'
          refine ⟨node', hl.symm.trans hn'', ?_⟩
          simp [hpr, hst2, markFailingOver]
        | error e =>
          left
          simp [hpr, failoverCatch, markFailingOver]
    · simp only [hping, if_false]
      left; rfl

/-! ## Claim theorems -/

/-- C1 (code evaluated at the failing input).  In the post-failover state
`stC1` (roles swapped, record `FAILED_OVER`/promoted, health `FAILED_OVER`),
with the original primary `epP` still down and the promoted replica `epR`
up, `HealthMonitor.checkNode` probes the endpoint currently in the `primary`
role slot — the promoted replica `epR`, not the original primary `epP` — and
that probe's success already triggers `handlePrimaryRecovery` and marks the
shard `HEALTHY`, even though the original primary was never probed and is
still down.  This contradicts the claim that recovery detection probes the
original primary endpoint and that only its successful probe triggers
recovery. -/
theorem checkNode_probes_promoted_replica :
    (checkNode envC1 n0 0 stC1).cmds.head? = some (Cmd.ping epR) ∧
    epR ≠ epP ∧
    envC1.pingOk epP = false ∧
    (checkNode envC1 n0 0 stC1).invokedRecovery = true ∧
    ((checkNode envC1 n0 0 stC1).state.healthStatus.lookup n0).map (·.status) =
      some HStatus.HEALTHY :=
  ⟨rfl, by decide, by decide, rfl, rfl⟩

/-- C2 (code evaluated at the failing input).  After a first successful
`failoverToReplica` on the fresh one-shard state (leaving the record
`FAILED_OVER`), a second call does not return immediately: it re-runs the
whole promotion sequence (PING, `CONFIG SET`, `REPLICAOF` — now against the
old primary `epP`, which after the first swap sits in the `replica` slot),
swaps the role pointers back so that `epP` is `primary` again, and counts a
second failover in the metrics. -/
theorem failoverToReplica_not_idempotent :
    ((failoverToReplica envUp n0 5 stFresh).1.failoverStatus.lookup n0 =
      some { status := FStatus.FAILED_OVER, promoted := true, error := none, duration := some 5 }) ∧
    (failoverToReplica envUp n0 7 (failoverToReplica envUp n0 5 stFresh).1).2.1 =
      [Cmd.ping epP, Cmd.configSet epP ("replica-read-only") ("no"),
       Cmd.replicaOf epP ("NO") ("ONE")] ∧
    (failoverToReplica envUp n0 7 (failoverToReplica envUp n0 5 stFresh).1).1.metrics.totalFailovers = 2 ∧
    ((failoverToReplica envUp n0 7 (failoverToReplica envUp n0 5 stFresh).1).1.nodes.lookup n0).map
      (·.primary) = some epP :=
  ⟨rfl, rfl, rfl, rfl⟩

/-- C3 (code evaluated at the failing input).  In `stGated` the target shard
of key `"k"` has failover status `FAILING_OVER`, yet `delete` issues the
`DEL` command against the write target and reports its result; it does not
return the node-in-failover error (the failover check exists only on the
`set` path). -/
theorem delete_ignores_failover_gate :
    isNodeInFailover stGated n0 = true ∧
    deleteOp envUp ("k") stGated =
      .ok ([Cmd.del epP ("k")],
        { success := true, key := "k", node := n0, nodeIndex := 0, error := none }) :=
  ⟨rfl, rfl⟩

/-- C4.  Any `set` whose target shard's failover record has status
`FAILING_OVER` returns the unsuccessful node-in-failover result — error kind
`NODE_IN_FAILOVER` rendered as `"Node is in failover state"` with retry
hint `"5 seconds"` — and issues no command at all (in particular no `SET` or
`SETEX`). -/
theorem set_gated_during_failover (env : Env) (st : CoordState) (key value : String)
    (ttl : Option Nat) (mode : Option String) (node : NodeBinding)
    (hnode : getNodeForKey st key = .ok (some node))
    (hfo : isNodeInFailover st node.name = true) :
    setOp env key value ttl mode st =
      .ok ([], { success := false, key := key, node := node.name, nodeIndex := node.id,
                 error := some ("Node is in failover state"),
                 retryAfter := some ("5 seconds"),
                 reason := some ("Promotion in progress, writes temporarily unavailable"),
                 hash := none, target := none, replication := none }) := by
  unfold setOp
  rw [hnode]
  simp [hfo]

/-- Witness for C4 at the concrete mid-failover state `stGated` and key
`"k"`. -/
theorem set_gated_during_failover_witness :
    setOp envUp ("k") ("v") none none stGated =
      .ok ([], { success := false, key := "k", node := n0, nodeIndex := 0,
                 error := some ("Node is in failover state"),
                 retryAfter := some ("5 seconds"),
                 reason := some ("Promotion in progress, writes temporarily unavailable"),
                 hash := none, target := none, replication := none }) :=
  set_gated_during_failover envUp stGated ("k") ("v") none none b0 (by rfl) (by rfl)

/-- C5 counterexample.  On the fresh state (whose shard-0 binding `b0` has
distinct `primary`/`replica` endpoints) `failoverToReplica` completes a
successful promotion, so the execution reaches the two-assignment role swap
of `promoteReplica` on `b0`; `midSwapBinding b0` is the binding state after
the first assignment (`node.primary = node.replica`) and before the second,
and there the two role pointers are equal — refuting the claim that at no
point during `failoverToReplica` does `binding.primary` equal
`binding.replica`. -/
theorem midSwap_pointers_alias :
    b0.primary ≠ b0.replica ∧
    (failoverToReplica envUp n0 3 stFresh).2.2.success = true ∧
    (midSwapBinding b0).primary = (midSwapBinding b0).replica :=
  ⟨by decide, rfl, rfl⟩

/-- C5 as amended: the intermediate aliasing is confined to the interior of
the two-assignment swap (which executes atomically — no `await` separates
the assignments); at the level of states before and after any
`failoverToReplica` call, distinctness of the role pointers of every binding
is preserved: the completed swap exchanges the two endpoints. -/
theorem failover_preserves_distinct_roles (env : Env) (name : String) (dur : Nat)
    (st : CoordState)
    (h : ∀ nm b, st.nodes.lookup nm = some b → b.primary ≠ b.replica) :
    ∀ nm b', (failoverToReplica env name dur st).1.nodes.lookup nm = some b' →
      b'.primary ≠ b'.replica := by
  intro nm b' hb'
  rcases failoverToReplica_nodes env name dur st with hn | ⟨node, hnode, hn⟩
  · rw [hn] at hb'
    exact h nm b' hb'
  · rw [hn, lookup_mset] at hb'
    by_cases hx : nm = name
    · rw [if_pos hx] at hb'
      cases hb'
      have hd := h name node hnode
      simp only [swappedBinding, midSwapBinding]
      exact fun hc => hd hc.symm
    · rw [if_neg hx] at hb'
      exact h nm b' hb'

/-- Witness for C5's amended theorem: after the failover on the fresh
one-shard state, the swapped binding stored for shard 0 still has distinct
role pointers. -/
theorem failover_preserves_distinct_roles_witness :
    (swappedBinding b0).primary ≠ (swappedBinding b0).replica :=
  failover_preserves_distinct_roles envUp n0 3 stFresh
    (by
      intro nm b hb
      by_cases hnm : nm = n0
      · rw [hnm] at hb
        obtain rfl :=
          Option.some.inj ((show stFresh.nodes.lookup n0 = some b0 by rfl).symm.trans hb)
        decide
      · simp [stFresh, List.lookup, beq_eq_false_iff_ne.mpr hnm] at hb)
    n0 (swappedBinding b0) (by rfl)

/-- C8.  For `get`: a `null` reply from the current primary gives the
non-exceptional key-not-found result; an error on the primary causes exactly
one `GET` attempt on the other endpoint, whose success is reported with
`source := "replica"`, `failover := true` and the replica warning; and
errors on both endpoints give the node-unavailable result. -/
theorem get_fallback_semantics (env : Env) (st : CoordState) (key : String)
    (node : NodeBinding) (hnode : getNodeForKey st key = .ok (some node)) :
    (env.getReply node.primary key = .ok none →
      getOp env key st =
        .ok ([Cmd.getK node.primary key],
          { success := false, key := key, node := node.name, nodeIndex := node.id,
            value := none, reason := some ("key_not_found"), source := some ("primary"),
            failover := false, warning := none, error := none })) ∧
    (∀ e v, env.getReply node.primary key = .error e →
      env.getReply node.replica key = .ok (some v) →
      getOp env key st =
        .ok ([Cmd.getK node.primary key, Cmd.getK node.replica key],
          { success := true, key := key, node := node.name, nodeIndex := node.id,
            value := some v, reason := none, source := some ("replica"),
            failover := true, warning := some ("Primary unavailable, reading from replica"),
            error := none })) ∧
    (∀ e₁ e₂, env.getReply node.primary key = .error e₁ →
      env.getReply node.replica key = .error e₂ →
      getOp env key st =
        .ok ([Cmd.getK node.primary key, Cmd.getK node.replica key],
          { success := false, key := key, node := node.name, nodeIndex := node.id,
            value := none, reason := none, source := none, failover := false,
            warning := none, error := some ("Node completely unavailable") })) := by
  refine ⟨fun h1 => ?_, fun e v h1 h2 => ?_, fun e₁ e₂ h1 h2 => ?_⟩ <;>
    unfold getOp <;> rw [hnode] <;> simp [h1]
  · simp [h2]
  · simp [h2]

/-- Witness for C8: in `envC8` the primary `epP` errors on `GET` and the
replica `epR` serves `"v"`; the fallback read succeeds from the replica with
the warning. -/
theorem get_fallback_semantics_witness :
    getOp envC8 ("k") stGated =
      .ok ([Cmd.getK epP ("k"), Cmd.getK epR ("k")],
        { success := true, key := "k", node := n0, nodeIndex := 0,
          value := some ("v"), reason := none, source := some ("replica"),
          failover := true, warning := some ("Primary unavailable, reading from replica"),
          error := none }) :=
  (get_fallback_semantics envC8 stGated ("k") b0 (by rfl)).2.1 ("conn refused") ("v")
    (by rfl) (by rfl)

/-- C10.  When a shard has no failover record, or its record's `promoted`
flag is false, `handlePrimaryRecovery` returns with the state completely
unchanged (in particular the role pointers and the failover status entry)
and without issuing any command. -/
theorem handlePrimaryRecovery_noop (env : Env) (name : String) (st : CoordState)
    (h : ((st.failoverStatus.lookup name).map (·.promoted)).getD false = false) :
    handlePrimaryRecovery env name st = (st, []) := by
  cases hr : st.failoverStatus.lookup name with
  | none => simp [handlePrimaryRecovery, hr]
  | some info =>
    have hp : info.promoted = false := by simpa [hr] using h
    simp [handlePrimaryRecovery, hr, hp]

/-- Witness for C10 on the fresh state, which has no failover record. -/
theorem handlePrimaryRecovery_noop_witness :
    handlePrimaryRecovery envUp n0 stFresh = (stFresh, []) :=
  handlePrimaryRecovery_noop envUp n0 stFresh (by rfl)

/-! ## C9: the failover metrics invariant -/

/-- `updateAverageFailoverTime` does not change `totalFailovers`. -/
@[simp] theorem updateAverage_totalFailovers (m : Metrics) :
    (updateAverageFailoverTime m).totalFailovers = m.totalFailovers := by
  unfold updateAverageFailoverTime; split <;> rfl

/-- `updateAverageFailoverTime` does not change `successfulFailovers`. -/
@[simp] theorem updateAverage_successfulFailovers (m : Metrics) :
    (updateAverageFailoverTime m).successfulFailovers = m.successfulFailovers := by
  unfold updateAverageFailoverTime; split <;> rfl

/-- `updateAverageFailoverTime` does not change `failedFailovers`. -/
@[simp] theorem updateAverage_failedFailovers (m : Metrics) :
    (updateAverageFailoverTime m).failedFailovers = m.failedFailovers := by
  unfold updateAverageFailoverTime; split <;> rfl

/-- The metric effect of one `failoverToReplica` call: the success path
increments `totalFailovers` and `successfulFailovers` together; every
failure path leaves both untouched (only `failedFailovers` moves). -/
theorem failoverToReplica_metrics (env : Env) (name : String) (dur : Nat) (st : CoordState) :
    ((failoverToReplica env name dur st).1.metrics.totalFailovers =
        st.metrics.totalFailovers + 1 ∧
     (failoverToReplica env name dur st).1.metrics.successfulFailovers =
        st.metrics.successfulFailovers + 1) ∨
    ((failoverToReplica env name dur st).1.metrics.totalFailovers =
        st.metrics.totalFailovers ∧
     (failoverToReplica env name dur st).1.metrics.successfulFailovers =
        st.metrics.successfulFailovers) := by
  simp only [failoverToReplica]
  cases hl : st.nodes.lookup name with
  | none => right; simp [failoverCatch, markFailingOver]
  | some node =>
    by_cases hping : env.pingOk node.replica
    · simp only [hping, if_true]
      cases hpr : promoteReplica env name (markFailingOver name st) with
      | mk res cmds =>
        cases res with
        | ok st2 =>
          obtain ⟨node', hn', hst2⟩ := promoteReplica_ok _ _ _ _ _ hpr
          left
          simp [hpr, hst2, markFailingOver]
        | error e => right; simp [hpr, failoverCatch, markFailingOver]
    · simp only [hping, if_false]
      right
      simp [failoverCatch, markFailingOver]

/-- `failoverToReplica` preserves `totalFailovers = successfulFailovers`. -/
theorem failoverToReplica_metrics_inv (env : Env) (name : String) (dur : Nat)
    (st : CoordState)
    (h : st.metrics.totalFailovers = st.metrics.successfulFailovers) :
    (failoverToReplica env name dur st).1.metrics.totalFailovers =
      (failoverToReplica env name dur st).1.metrics.successfulFailovers := by
  rcases failoverToReplica_metrics env name dur st with ⟨h1, h2⟩ | ⟨h1, h2⟩ <;> omega

/-- `handlePrimaryRecovery` never touches the metrics. -/
theorem handlePrimaryRecovery_metrics (env : Env) (name : String) (st : CoordState) :
    (handlePrimaryRecovery env name st).1.metrics = st.metrics := by
  unfold handlePrimaryRecovery
  split
  · rfl
  · split
    · split
      · rfl
      · dsimp only
        split
        · split
          · rfl
          · rfl
        · rfl
    · rfl

/-- `checkNode` preserves `totalFailovers = successfulFailovers`: its only
metric mutation happens through the `failoverToReplica` it may invoke. -/
theorem checkNode_metrics_inv (env : Env) (name : String) (dur : Nat) (st : CoordState)
    (h : st.metrics.totalFailovers = st.metrics.successfulFailovers) :
    (checkNode env name dur st).state.metrics.totalFailovers =
      (checkNode env name dur st).state.metrics.successfulFailovers := by
  simp only [checkNode]
  split
  · split
    · split
      · rw [handlePrimaryRecovery_metrics]
        exact h
      · exact h
    · split
      · exact failoverToReplica_metrics_inv env name dur _ h
      · exact h
  · exact h

/-- One state-mutating call preserves `totalFailovers = successfulFailovers`. -/
theorem applyAction_metrics_inv (st : CoordState) (a : Action)
    (h : st.metrics.totalFailovers = st.metrics.successfulFailovers) :
    (applyAction st a).metrics.totalFailovers =
      (applyAction st a).metrics.successfulFailovers := by
  cases a with
  | failover env name dur => exact failoverToReplica_metrics_inv env name dur st h
  | recovery env name =>
    have hm := handlePrimaryRecovery_metrics env name st
    simpa [applyAction, hm] using h
  | check env name dur => exact checkNode_metrics_inv env name dur st h
  | reset name => simpa [applyAction] using h

/-- The invariant holds along every execution history. -/
theorem history_metrics_inv (acts : List Action) (st : CoordState)
    (h : st.metrics.totalFailovers = st.metrics.successfulFailovers) :
    (acts.foldl applyAction st).metrics.totalFailovers =
      (acts.foldl applyAction st).metrics.successfulFailovers := by
  induction acts generalizing st with
  | nil => simpa using h
  | cons a rest ih => exact ih _ (applyAction_metrics_inv st a h)

/-- When every counted failover succeeded, the reported rate is `"100.0%"`. -/
theorem successRate_all_success (m : Metrics)
    (h1 : m.totalFailovers = m.successfulFailovers) (h2 : 0 < m.totalFailovers) :
    successRate m = "100.0%" := by
  have hne : (m.totalFailovers : ℚ) ≠ 0 := Nat.cast_ne_zero.mpr h2.ne'
  have hq : (m.successfulFailovers : ℚ) / (m.totalFailovers : ℚ) * 100 = 100 := by
    rw [← h1, div_self hne, one_mul]
  have h100 : toFixed1 100 = "100.0" := by
    have hr : ((100 : ℚ) * 10) = ((1000 : ℤ) : ℚ) := by norm_num
    rw [toFixed1, hr, round_intCast]
    decide
  unfold successRate
  rw [if_pos h2, hq, h100]
  decide

/-- C9.  `totalFailovers` is bumped only on the success path of
`failoverToReplica`, so along every execution history starting from the
constructor's zeroed metrics `totalFailovers = successfulFailovers` (failed
failovers move only `failedFailovers`), and `getFailoverMetrics` therefore
reports `successRate = "100.0%"` whenever `totalFailovers > 0` and `"N/A"`
otherwise, regardless of how many failovers have failed. -/
theorem metrics_successRate_invariant (st : CoordState) (acts : List Action)
    (h : st.metrics = initMetrics) :
    ((acts.foldl applyAction st).metrics.totalFailovers =
       (acts.foldl applyAction st).metrics.successfulFailovers) ∧
    (0 < (acts.foldl applyAction st).metrics.totalFailovers →
       successRate (acts.foldl applyAction st).metrics = "100.0%") ∧
    ((acts.foldl applyAction st).metrics.totalFailovers = 0 →
       successRate (acts.foldl applyAction st).metrics = "N/A") := by
  have h0 : st.metrics.totalFailovers = st.metrics.successfulFailovers := by rw [h]; rfl
  have hinv := history_metrics_inv acts st h0
  refine ⟨hinv, fun hpos => successRate_all_success _ hinv hpos, fun hz => ?_⟩
  unfold successRate
  rw [if_neg (by omega)]

/-- Witness for C9: a history with one successful failover (and one failed
one on a node with a dead replica) reports a `"100.0%"` success rate. -/
theorem metrics_successRate_invariant_witness :
    (([Action.failover envUp n0 5].foldl applyAction stFresh).metrics.totalFailovers =
      ([Action.failover envUp n0 5].foldl applyAction stFresh).metrics.successfulFailovers) ∧
    successRate ([Action.failover envUp n0 5].foldl applyAction stFresh).metrics = "100.0%" :=
  ⟨(metrics_successRate_invariant stFresh [Action.failover envUp n0 5] (by rfl)).1,
   (metrics_successRate_invariant stFresh [Action.failover envUp n0 5] (by rfl)).2.1 (by decide)⟩

/-! ## C6: lookup returns the first position at or after the key's hash -/

/-- Monotonicity of `getD` access on a sorted list. -/
theorem sorted_getD_le (l : List Nat) (hs : l.Sorted (· ≤ ·)) (i j : Nat)
    (hij : i ≤ j) (hj : j < l.length) : l.getD i 0 ≤ l.getD j 0 := by
  have hi : i < l.length := lt_of_le_of_lt hij hj
  rw [List.getD_eq_get _ _ hi, List.getD_eq_get _ _ hj]
  exact hs.rel_get_of_le (Fin.mk_le_mk.mpr hij)

/-- Loop invariant of the binary search: starting from a window
`[left, right)` whose left part is all `< p` and whose right part is all
`≥ p`, with enough fuel, the loop lands on the boundary index. -/
theorem bsearchGo_spec (keys : List Nat) (p : Nat) (hs : keys.Sorted (· ≤ ·)) :
    ∀ fuel left right, right ≤ keys.length → left ≤ right → right - left ≤ fuel →
      (∀ i, i < left → keys.getD i 0 < p) →
      (∀ i, right ≤ i → i < keys.length → p ≤ keys.getD i 0) →
      left ≤ bsearchGo keys p left right fuel ∧
      bsearchGo keys p left right fuel ≤ right ∧
      (∀ i, i < bsearchGo keys p left right fuel → keys.getD i 0 < p) ∧
      (∀ i, bsearchGo keys p left right fuel ≤ i → i < keys.length →
        p ≤ keys.getD i 0) := by
  intro fuel
  induction fuel with
  | zero =>
    intro left right hr hlr hf hlo hhi
    have heq : right = left := by omega
    subst heq
    exact ⟨le_refl _, le_refl _, hlo, fun i hi hilen => hhi i hi hilen⟩
  | succ fuel ih =>
    intro left right hr hlr hf hlo hhi
    by_cases hlt : left < right
    · have hmid1 : left ≤ (left + right) / 2 := by omega
      have hmid2 : (left + right) / 2 < right := by omega
      have hmidlen : (left + right) / 2 < keys.length := lt_of_lt_of_le hmid2 hr
      by_cases hkey : keys.getD ((left + right) / 2) 0 < p
      · have hlo' : ∀ i, i < (left + right) / 2 + 1 → keys.getD i 0 < p := by
          intro i hi
          exact lt_of_le_of_lt (sorted_getD_le keys hs i ((left + right) / 2) (by omega) hmidlen) hkey
        obtain ⟨g1, g2, g3, g4⟩ :=
          ih ((left + right) / 2 + 1) right hr (by omega) (by omega) hlo' hhi
        rw [bsearchGo, if_pos hlt]
        simp only [if_pos hkey]
        exact ⟨by omega, g2, g3, g4⟩
      · have hhi' : ∀ i, (left + right) / 2 ≤ i → i < keys.length → p ≤ keys.getD i 0 := by
          intro i hi hilen
          exact le_trans (Nat.not_lt.mp hkey)
            (sorted_getD_le keys hs ((left + right) / 2) i hi hilen)
        obtain ⟨g1, g2, g3, g4⟩ :=
          ih left ((left + right) / 2) (le_of_lt hmidlen) (by omega) (by omega) hlo hhi'
        rw [bsearchGo, if_pos hlt]
        simp only [if_neg hkey]
        exact ⟨g1, by omega, g3, g4⟩
    · have heq : right = left := by omega
      subst heq
      rw [bsearchGo, if_neg hlt]
      exact ⟨le_refl _, le_refl _, hlo, fun i hi hilen => hhi i hi hilen⟩

/-- Correctness of the full binary search of `getNodeForKey`. -/
theorem bsearchLoop_spec (keys : List Nat) (p : Nat) (hs : keys.Sorted (· ≤ ·)) :
    bsearchLoop keys p ≤ keys.length ∧
    (∀ i, i < bsearchLoop keys p → keys.getD i 0 < p) ∧
    (bsearchLoop keys p < keys.length → p ≤ keys.getD (bsearchLoop keys p) 0) := by
  obtain ⟨h1, h2, h3, h4⟩ :=
    bsearchGo_spec keys p hs keys.length 0 keys.length (le_refl _) (Nat.zero_le _)
      (by omega) (fun i hi => absurd hi (Nat.not_lt_zero i))
      (fun i hge hlt => absurd hlt (Nat.not_lt.mpr hge))
  exact ⟨h2, h3, fun hlt => h4 _ (le_refl _) hlt⟩

/-- `find?` returns the element at the first index whose test passes. -/
theorem find?_eq_some_getD (l : List Nat) (q : Nat → Bool) (r : Nat) (hr : r < l.length)
    (hbefore : ∀ i, i < r → q (l.getD i 0) = false) (hat : q (l.getD r 0) = true) :
    l.find? q = some (l.getD r 0) := by
  induction l generalizing r with
  | nil => simp at hr
  | cons x t ih =>
    cases r with
    | zero =>
      simp only [List.getD_cons_zero] at hat
      simp [List.find?, hat]
    | succ r' =>
      have hx : q x = false := by simpa using hbefore 0 (Nat.succ_pos r')
      simp only [List.getD_cons_succ] at hat ⊢
      simp only [List.find?, hx]
      exact ih r' (by simpa using hr)
        (fun i hi => by simpa using hbefore (i + 1) (by omega)) hat

/-- `find?` misses when the test fails at every index. -/
theorem find?_eq_none_getD (l : List Nat) (q : Nat → Bool)
    (h : ∀ i, i < l.length → q (l.getD i 0) = false) : l.find? q = none := by
  induction l with
  | nil => rfl
  | cons x t ih =>
    have hx : q x = false := by simpa using h 0 (by simp)
    simp only [List.find?, hx]
    exact ih (fun i hi => by simpa using h (i + 1) (by simpa using Nat.succ_lt_succ hi))

/-- On a sorted list containing `p`, the first element `≥ p` is `p` itself
(the exact-match tie-break of the lookup). -/
theorem find?_firstGE_self (l : List Nat) (p : Nat) (hs : l.Sorted (· ≤ ·)) (hmem : p ∈ l) :
    l.find? (fun x => decide (p ≤ x)) = some p := by
  induction l with
  | nil => simp at hmem
  | cons x t ih =>
    rw [List.sorted_cons] at hs
    by_cases hpx : p ≤ x
    · have hxp : x = p := by
        rcases List.mem_cons.mp hmem with h | h
        · exact h.symm
        · exact le_antisymm (hs.1 p h) hpx
      rw [List.find?_cons_of_pos _ (by simpa using hpx), hxp]
    · have hmem' : p ∈ t := by
        rcases List.mem_cons.mp hmem with h | h
        · exact absurd (le_of_eq h) hpx
        · exact h
      rw [List.find?_cons_of_neg _ (by simpa using hpx)]
      exact ih hs.2 hmem'

/-- `headD` is access at index 0. -/
theorem headD_eq_getD_zero (l : List Nat) : l.headD 0 = l.getD 0 0 := by
  cases l <;> rfl

/-- C6.  On a non-empty ring with ascending positions, `getNodeForKey`
returns the binding owning the first virtual-node position `≥ hashFunction
key` (SHA-256 truncated to its leading 32 bits, reduced mod `2 ^ 32`); when
the hash exceeds every position the lookup wraps to the binding owning the
smallest position, and when the hash equals a stored position the first
position `≥` it is that very position, so the exact match wins. -/
theorem getNodeForKey_firstGE (st : CoordState) (key : String)
    (hsort : st.sortedKeys.Sorted (· ≤ ·)) (hne : st.sortedKeys ≠ []) :
    (getNodeForKey st key =
      .ok (match st.sortedKeys.find? (fun pos => decide (hashFunction key ≤ pos)) with
           | some pos => ringBindingAt st pos
           | none => ringBindingAt st (st.sortedKeys.headD 0))) ∧
    (hashFunction key ∈ st.sortedKeys →
      st.sortedKeys.find? (fun pos => decide (hashFunction key ≤ pos)) =
        some (hashFunction key)) := by
  constructor
  · obtain ⟨hle, hbefore, hat⟩ := bsearchLoop_spec st.sortedKeys (hashFunction key) hsort
    have hlen : ¬ st.sortedKeys.length = 0 := by
      simpa [List.length_eq_zero] using hne
    simp only [getNodeForKey]
    rw [if_neg hlen]
    by_cases hr : bsearchLoop st.sortedKeys (hashFunction key) < st.sortedKeys.length
    · rw [if_neg (by omega)]
      rw [find?_eq_some_getD st.sortedKeys _ (bsearchLoop st.sortedKeys (hashFunction key)) hr
        (fun i hi => decide_eq_false (Nat.not_le.mpr (hbefore i hi)))
        (decide_eq_true (hat hr))]
    · rw [if_pos (by omega)]
      rw [find?_eq_none_getD st.sortedKeys _
        (fun i hi => decide_eq_false (Nat.not_le.mpr (hbefore i (by omega))))]
      rw [headD_eq_getD_zero]
  · intro hmem
    exact find?_firstGE_self _ _ hsort hmem

/-- Witness for C6 on the two-position ring `stRing2` with key `"a"`, whose
hash exceeds both positions, so the lookup wraps to the smallest position. -/
theorem getNodeForKey_firstGE_witness :
    (getNodeForKey stRing2 ("a") =
      .ok (match stRing2.sortedKeys.find? (fun pos => decide (hashFunction ("a") ≤ pos)) with
           | some pos => ringBindingAt stRing2 pos
           | none => ringBindingAt stRing2 (stRing2.sortedKeys.headD 0))) ∧
    (hashFunction ("a") ∈ stRing2.sortedKeys →
      stRing2.sortedKeys.find? (fun pos => decide (hashFunction ("a") ≤ pos)) =
        some (hashFunction ("a"))) :=
  getNodeForKey_firstGE stRing2 ("a") (by decide) (by decide)

/-! ## C7: the constructed ring's positions -/

/-- Hash values live in the hash space. -/
theorem hashFunction_lt (s : String) : hashFunction s < hashSpace :=
  Nat.mod_lt _ (by norm_num [hashSpace])

/-- Pigeonhole: when fewer than `2 ^ 32` positions are occupied, the probe
sequence `p, p + 1, …` (mod `2 ^ 32`) reaches a free slot within `2 ^ 32`
steps. -/
theorem exists_free_slot (occupied : List Nat) (p : Nat)
    (hlen : occupied.length < hashSpace) :
    ∃ k, k < hashSpace ∧ (p + k) % hashSpace ∉ occupied := by
  by_contra hcon
  push_neg at hcon
  have hsub : ∀ k ∈ Finset.range hashSpace,
      (fun k => (p + k) % hashSpace) k ∈ occupied.toFinset := by
    intro k hk
    exact List.mem_toFinset.mpr (hcon k (Finset.mem_range.mp hk))
  have hinj : Set.InjOn (fun k => (p + k) % hashSpace) (Finset.range hashSpace) := by
    intro a ha b hb hab
    simp only at hab
    have ha' := Finset.mem_range.mp ha
    have hb' := Finset.mem_range.mp hb
    have hmod : a % hashSpace = b % hashSpace := Nat.ModEq.add_left_cancel' p hab
    rwa [Nat.mod_eq_of_lt ha', Nat.mod_eq_of_lt hb'] at hmod
  have hcard := Finset.card_le_card_of_injOn _ hsub hinj
  rw [Finset.card_range] at hcard
  have htf := List.toFinset_card_le occupied
  omega

/-- With a free slot within reach of the fuel, the collision-resolution loop
stops outside the occupied set, inside the hash space. -/
theorem probeFree_not_mem_aux (occupied : List Nat) :
    ∀ fuel p, p < hashSpace →
      (∃ k, k < fuel ∧ (p + k) % hashSpace ∉ occupied) →
      probeFree occupied p fuel ∉ occupied ∧ probeFree occupied p fuel < hashSpace := by
  intro fuel
  induction fuel with
  | zero =>
    rintro p hp ⟨k, hk, _⟩
    exact absurd hk (Nat.not_lt_zero k)
  | succ fuel ih =>
    rintro p hp ⟨k, hk, hfree⟩
    by_cases hmem : p ∈ occupied
    · rw [probeFree, if_pos hmem]
      apply ih ((p + 1) % hashSpace) (Nat.mod_lt _ (by norm_num [hashSpace]))
      have hk0 : k ≠ 0 := by
        intro h0
        subst h0
        rw [Nat.add_zero, Nat.mod_eq_of_lt hp] at hfree
        exact hfree hmem
      refine ⟨k - 1, by omega, ?_⟩
      have h2 : p + 1 + (k - 1) = p + k := by omega
      rw [Nat.mod_add_mod, h2]
      exact hfree
    · rw [probeFree, if_neg hmem]
      exact ⟨hmem, hp⟩

/-- The collision-resolution loop of `addNodeWithReplica`, run with fuel
`2 ^ 32` as in the model, always finds a fresh position when fewer than
`2 ^ 32` are occupied. -/
theorem probeFree_spec (occupied : List Nat) (p : Nat) (hp : p < hashSpace)
    (hlen : occupied.length < hashSpace) :
    probeFree occupied p hashSpace ∉ occupied ∧
    probeFree occupied p hashSpace < hashSpace :=
  probeFree_not_mem_aux occupied hashSpace p hp (exists_free_slot occupied p hlen)

/-- One virtual-node insertion preserves the ring invariant and adds exactly
one position. -/
theorem addVNodeStep_inv (name : String) (i : Nat) (st : CoordState)
    (hinv : RingInv st) (hlen : st.ring.length < hashSpace) :
    RingInv (addVNodeStep name st i) ∧
    (addVNodeStep name st i).ring.length = st.ring.length + 1 ∧
    (addVNodeStep name st i).nodes = st.nodes := by
  obtain ⟨hnd, hbound, hperm⟩ := hinv
  have hlen' : (st.ring.map (·.1)).length < hashSpace := by simpa using hlen
  have hp : hashFunction (name ++ ":vnode" ++ toString i) < hashSpace := hashFunction_lt _
  obtain ⟨hfree, hlt⟩ := probeFree_spec (st.ring.map (·.1)) _ hp hlen'
  refine ⟨⟨?_, ?_, ?_⟩, ?_, rfl⟩
  · simp only [addVNodeStep, List.map_append, List.map_cons, List.map_nil]
    simp [List.nodup_append, hnd, hfree]
  · intro q hq
    simp only [addVNodeStep, List.map_append, List.map_cons, List.map_nil,
      List.mem_append, List.mem_cons, List.not_mem_nil, or_false] at hq
    rcases hq with hq | hq
    · exact hbound q hq
    · rw [hq]; exact hlt
  · simp only [addVNodeStep, List.map_append, List.map_cons, List.map_nil]
    exact hperm.append_right _
  · simp [addVNodeStep]

/-- Inserting `V` virtual nodes preserves the invariant and adds `V`
positions. -/
theorem addVNodes_fold_inv (name : String) (V : Nat) (st : CoordState)
    (hinv : RingInv st) (hlen : st.ring.length + V ≤ hashSpace) :
    RingInv ((List.range V).foldl (addVNodeStep name) st) ∧
    ((List.range V).foldl (addVNodeStep name) st).ring.length = st.ring.length + V ∧
    ((List.range V).foldl (addVNodeStep name) st).nodes = st.nodes := by
  induction V with
  | zero =>
    simp only [List.range_zero, List.foldl_nil]
    exact ⟨hinv, by simp, by simp⟩
  | succ V ih =>
    rw [List.range_succ]
    simp only [List.foldl_append, List.foldl_cons, List.foldl_nil]
    obtain ⟨h1, h2, h3⟩ := ih (by omega)
    obtain ⟨g1, g2, g3⟩ := addVNodeStep_inv name V _ h1 (by omega)
    refine ⟨g1, by omega, by rw [g3, h3]⟩

/-- `addNodeWithReplica` preserves the invariant, adds `V` positions, and
leaves the position list sorted. -/
theorem addNodeWithReplica_inv (id : Nat) (pc rc : Endpoint) (V : Nat) (st : CoordState)
    (hinv : RingInv st) (hlen : st.ring.length + V ≤ hashSpace) :
    RingInv (addNodeWithReplica id pc rc V st) ∧
    (addNodeWithReplica id pc rc V st).ring.length = st.ring.length + V ∧
    (addNodeWithReplica id pc rc V st).sortedKeys.Sorted (· ≤ ·) := by
  simp only [addNodeWithReplica]
  obtain ⟨⟨hnd, hb, hperm⟩, hlen2, hnodes⟩ :=
    addVNodes_fold_inv ("cache_node_" ++ toString id) V
      { st with
          nodes := mset st.nodes ("cache_node_" ++ toString id)
            ({ id := id, name := "cache_node_" ++ toString id, primary := pc, replica := rc }) }
      hinv hlen
  refine ⟨⟨hnd, hb, ?_⟩, hlen2, ?_⟩
  · exact (List.perm_insertionSort _ _).trans hperm
  · exact List.sorted_insertionSort _ _

/-- The node-addition fold of the constructor preserves the invariant,
sortedness, and the position count. -/
theorem buildRing_fold_inv (primaries replicas : List Endpoint) (V : Nat) :
    ∀ N st, RingInv st → st.sortedKeys.Sorted (· ≤ ·) →
      st.ring.length + N * V ≤ hashSpace →
      RingInv ((List.range N).foldl
        (fun s i => addNodeWithReplica i (primaries.getD i ⟨"", 0⟩) (replicas.getD i ⟨"", 0⟩) V s) st) ∧
      ((List.range N).foldl
        (fun s i => addNodeWithReplica i (primaries.getD i ⟨"", 0⟩) (replicas.getD i ⟨"", 0⟩) V s) st).ring.length =
        st.ring.length + N * V ∧
      ((List.range N).foldl
        (fun s i => addNodeWithReplica i (primaries.getD i ⟨"", 0⟩) (replicas.getD i ⟨"", 0⟩) V s) st).sortedKeys.Sorted (· ≤ ·) := by
  intro N
  induction N with
  | zero =>
    intro st h1 h2 h3
    simp only [List.range_zero, List.foldl_nil]
    exact ⟨h1, by simp, h2⟩
  | succ N ih =>
    intro st h1 h2 h3
    rw [List.range_succ]
    simp only [List.foldl_append, List.foldl_cons, List.foldl_nil]
    obtain ⟨g1, g2, g3⟩ := ih st h1 h2 (by nlinarith)
    obtain ⟨k1, k2, k3⟩ := addNodeWithReplica_inv N (primaries.getD N ⟨"", 0⟩)
      (replicas.getD N ⟨"", 0⟩) V _ g1 (by nlinarith)
    refine ⟨k1, by rw [k2, g2]; ring, k3⟩

/-- C7.  After construction with `N` primary/replica pairs and `V` virtual
nodes per shard (with `N·V` within the `2 ^ 32` hash space, so collision
probing terminates), the ring holds exactly `N·V` positions, they are
pairwise distinct (collisions resolved by successive `+1 mod 2 ^ 32`), and
the position list is sorted ascending. -/
theorem buildRing_positions (primaries replicas : List Endpoint) (V : Nat) (mode : String)
    (hNV : primaries.length * V ≤ hashSpace) :
    (buildRing primaries replicas V mode).sortedKeys.length = primaries.length * V ∧
    (buildRing primaries replicas V mode).sortedKeys.Nodup ∧
    (buildRing primaries replicas V mode).sortedKeys.Sorted (· ≤ ·) := by
  have h0 : RingInv
      { nodes := [], ring := [], sortedKeys := [], replicationMode := mode,
        failoverStatus := [], metrics := initMetrics, healthStatus := [],
        healthHistory := [] } := ⟨List.nodup_nil, by simp, List.Perm.refl _⟩
  obtain ⟨⟨hnd, hb, hperm⟩, hlen, hsort⟩ :=
    buildRing_fold_inv primaries replicas V primaries.length _ h0
      List.sorted_nil (by simpa using hNV)
  simp only [buildRing]
  refine ⟨?_, ?_, hsort⟩
  · rw [hperm.length_eq]
    simpa using hlen
  · exact (hperm.nodup_iff).mpr hnd

/-- Witness for C7: a one-shard, one-virtual-node construction. -/
theorem buildRing_positions_witness :
    (buildRing [epP] [epR] 1 ("async")).sortedKeys.length = [epP].length * 1 ∧
    (buildRing [epP] [epR] 1 ("async")).sortedKeys.Nodup ∧
    (buildRing [epP] [epR] 1 ("async")).sortedKeys.Sorted (· ≤ ·) :=
  buildRing_positions [epP] [epR] 1 ("async") (by decide)

end RedisCache
